import Mathlib

/-!
Shallow embedding of the match-statistics aggregation logic of the ATP
tennis analyzer.  Dataframe rows become a list of MatchRecord values and
each pandas pipeline of the source is translated operation by operation
into a pure function on lists: selections become filters, groupby sizes
become multiplicity tables over deduplicated key lists, the outer merge,
pivot and reindex steps become total lookups with a zero default over
sorted united axes, and cumsum becomes an accumulator recursion.
-/

/-- A row of the loaded dataframe.  Surface and Round are optional since the
heatmap code explicitly guards against missing values in exactly these two
columns before building the matrix, so the record space the engine runs on
must allow their absence.  Dates are abstracted to a totally ordered stamp. -/
structure MatchRecord where
  date : Nat
  player_1 : String
  player_2 : String
  winner : String
  surface : Option String
  round : Option String
deriving DecidableEq

/-- Selection of the rows in which the player appears in either participant
column (line 59): df[(df[Player_1] == p) | (df[Player_2] == p)]. -/
def careerFilter (df : List MatchRecord) (p : String) : List MatchRecord :=
  df.filter (fun r => r.player_1 == p || r.player_2 == p)

/-- Selection of the rows whose unordered participant pair is (p1, p2)
(lines 96-97). -/
def h2hFilter (df : List MatchRecord) (p1 p2 : String) : List MatchRecord :=
  df.filter (fun r =>
    (r.player_1 == p1 && r.player_2 == p2) || (r.player_1 == p2 && r.player_2 == p1))

/-- Multiplicity of one key in a list of keys, as delivered by a pandas
groupby size for that key. -/
def occCount {α : Type*} [DecidableEq α] (l : List α) (a : α) : Nat :=
  l.countP (fun x => decide (x = a))

/-- Ascending sort of a string axis, the sorted(...) of the source. -/
def sortStr (l : List String) : List String :=
  l.insertionSort (· ≤ ·)

/-- Comparison used by sort_values(ascending=False) on the win counts.
pandas does not promise an order among ties; every property proved below is
invariant under reordering, so any sort realising the descending order is a
faithful model. -/
def winsDescLE (a b : String × Nat) : Prop := b.2 ≤ a.2

instance : DecidableRel winsDescLE := fun a b => by unfold winsDescLE; exact inferInstance

/-- groupby(Surface).size() over a column of surface values: the distinct
surfaces (pandas sorts group keys) paired with their multiplicities.  Rows
whose surface is missing never reach this point: pandas groupby silently
drops missing keys, modelled by the filterMap at each call site. -/
def groupbySurfaceSize (ss : List String) : List (String × Nat) :=
  (sortStr ss.dedup).map (fun s => (s, occCount ss s))

structure CareerStats where
  total_matches : Nat
  total_wins : Nat
  win_rate : ℚ
  wins_by_surface : List (String × Nat)
deriving DecidableEq

/-- plot_career_stats (first variant, lines 56-92): none models the
EmptyResult message on an empty selection, otherwise the summary numbers.
Chart rendering is dropped; the win rate is computed over the rationals,
the intended real-number reading of the float expression of line 68. -/
def plot_career_stats (df : List MatchRecord) (p : String) : Option CareerStats :=
  let player_matches := careerFilter df p
  if player_matches.isEmpty then none
  else
    let wins := player_matches.countP (fun r => r.winner == p)
    some { total_matches := player_matches.length
         , total_wins := wins
         , win_rate :=
             if 0 < player_matches.length then
               ((wins : ℚ) / (player_matches.length : ℚ)) * 100
             else 0
         , wins_by_surface :=
             ((groupbySurfaceSize
                 ((player_matches.filter (fun r => r.winner == p)).filterMap
                   (fun r => r.surface))).insertionSort winsDescLE) }

/-- get_player_stats (second variant, lines 328-339): total matches, win
rate and the surface win table, with no empty-selection guard apart from
the conditional inside the rate (line 333). -/
def get_player_stats (df : List MatchRecord) (p : String) :
    Nat × ℚ × List (String × Nat) :=
  let player_matches := careerFilter df p
  let wins := player_matches.countP (fun r => r.winner == p)
  ( player_matches.length
  , if 0 < player_matches.length then
      ((wins : ℚ) / (player_matches.length : ℚ)) * 100
    else 0
  , groupbySurfaceSize
      ((player_matches.filter (fun r => r.winner == p)).filterMap (fun r => r.surface)) )

structure H2HSummary where
  total_matches : Nat
  p1_wins : Nat
  p2_wins : Nat
deriving DecidableEq

/-- plot_h2h_summary (lines 94-111): none models the EmptyResult message;
otherwise the three metrics of lines 103-105.  total_matches is the raw
selection length, whatever the winner fields hold. -/
def plot_h2h_summary (df : List MatchRecord) (p1 p2 : String) : Option H2HSummary :=
  let h2h_matches := h2hFilter df p1 p2
  if h2h_matches.isEmpty then none
  else some
    { total_matches := h2h_matches.length
    , p1_wins := h2h_matches.countP (fun r => r.winner == p1)
    , p2_wins := h2h_matches.countP (fun r => r.winner == p2) }

/-- Association-list lookup with a default, the pure counterpart of the
fillna and reindex(fill_value) conventions: a key absent from the mapping
reads as the default. -/
def lookupD {β : Type*} (d : β) : List ((String × String) × β) → (String × String) → β
  | [], _ => d
  | kv :: rest, k => if kv.1 = k then kv.2 else lookupD d rest k

/-- Lexicographic order on (surface, round) keys, the order pandas applies
when an outer merge or a groupby sorts its keys. -/
def keyLE (a b : String × String) : Prop :=
  a.1 < b.1 ∨ (a.1 = b.1 ∧ a.2 ≤ b.2)

instance : DecidableRel keyLE := fun a b => by unfold keyLE; exact inferInstance

def sortKeys (l : List (String × String)) : List (String × String) :=
  l.insertionSort keyLE

def unionKeys (A B : List ((String × String) × Nat)) : List (String × String) :=
  (A.map (fun kv => kv.1) ++ B.map (fun kv => kv.1)).dedup

/-- pd.merge(heat1, heat2, on=[Surface, Round], how="outer").fillna(0)
(line 153): one row per key of either input, keys sorted lexicographically
as an outer merge sorts them, carrying both counts with 0 for the side that
lacks the key. -/
def mergeOuter (A B : List ((String × String) × Nat)) :
    List ((String × String) × (Nat × Nat)) :=
  (sortKeys (unionKeys A B)).map (fun k => (k, (lookupD 0 A k, lookupD 0 B k)))

/-- Line 160: sorted(set(pivot_p1.index) | set(pivot_p2.index)).  Both pivots
are built from merged, so this is the sorted set of surfaces of merged. -/
def allSurfaces (A B : List ((String × String) × Nat)) : List String :=
  sortStr (((mergeOuter A B).map (fun kv => kv.1.1)).dedup)

/-- Line 161: sorted(set(pivot_p1.columns) | set(pivot_p2.columns)). -/
def allRounds (A B : List ((String × String) × Nat)) : List String :=
  sortStr (((mergeOuter A B).map (fun kv => kv.1.2)).dedup)

/-- Lines 144-167: pivot both count columns of merged over the grid,
zero-fill, reindex over the united axes with fill_value 0 and subtract.
The cell at (s, r) is the pair carried by merged at key (s, r) — (0, 0)
when the key is absent, which is the fillna semantics of the pivots and of
the reindex — first component minus second, as a signed integer. -/
def alignAndDiff (A B : List ((String × String) × Nat)) : List (List Int) :=
  (allSurfaces A B).map (fun s =>
    (allRounds A B).map (fun r =>
      ((lookupD (0, 0) (mergeOuter A B) (s, r)).1 : Int) -
      ((lookupD (0, 0) (mergeOuter A B) (s, r)).2 : Int)))

/-- Surfaces axis as section 4.3 step 1 of the specification words it: the
lexicographically sorted union of the surfaces appearing in either input
mapping.  Stated from the specification for the refinement comparison. -/
def specAllSurfaces (A B : List ((String × String) × Nat)) : List String :=
  sortStr ((A.map (fun kv => kv.1.1) ++ B.map (fun kv => kv.1.1)).dedup)

/-- Rounds axis as section 4.3 step 2 of the specification words it. -/
def specAllRounds (A B : List ((String × String) × Nat)) : List String :=
  sortStr ((A.map (fun kv => kv.1.2) ++ B.map (fun kv => kv.1.2)).dedup)

/-- Difference matrix as section 4.3 steps 3-4 of the specification word
it: dense grids for A and B over the united axes with 0 at absent keys,
subtracted cellwise.  Stated from the specification for the refinement
comparison with alignAndDiff. -/
def specDiffMatrix (A B : List ((String × String) × Nat)) : List (List Int) :=
  (specAllSurfaces A B).map (fun s =>
    (specAllRounds A B).map (fun r =>
      ((lookupD (0 : Nat) A (s, r) : Nat) : Int) - ((lookupD (0 : Nat) B (s, r) : Nat) : Int)))

inductive HeatmapResult where
  | empty : HeatmapResult
  | incompleteCategoryData : HeatmapResult
  | diffMatrix : List (List Int) → HeatmapResult
deriving DecidableEq

/-- Surface/round key of each record carrying both fields. -/
def winKeys (l : List MatchRecord) : List (String × String) :=
  l.filterMap (fun r =>
    match r.surface, r.round with
    | some s, some rd => some (s, rd)
    | _, _ => none)

/-- groupby([Surface, Round]).size().reset_index() (lines 149-150): the
distinct keys, sorted as pandas sorts group keys, with multiplicities. -/
def groupbySurfaceRoundSize (l : List MatchRecord) : List ((String × String) × Nat) :=
  (sortKeys (winKeys l).dedup).map (fun k => (k, occCount (winKeys l) k))

/-- plot_h2h_heatmap (lines 129-167): an empty selection returns silently
(the summary already reported it); a missing Surface or Round on any
selected row aborts with the warning of line 141, the
IncompleteCategoryData outcome; otherwise the difference matrix is built
from the two per-player groupings. -/
def plot_h2h_heatmap (df : List MatchRecord) (p1 p2 : String) : HeatmapResult :=
  let h2h_matches := h2hFilter df p1 p2
  if h2h_matches.isEmpty then .empty
  else if h2h_matches.any (fun r => r.surface.isNone || r.round.isNone) then
    .incompleteCategoryData
  else
    .diffMatrix (alignAndDiff
      (groupbySurfaceRoundSize (h2h_matches.filter (fun r => r.winner == p1)))
      (groupbySurfaceRoundSize (h2h_matches.filter (fun r => r.winner == p2))))

/-- Sum of all cells of a matrix. -/
def matrixSum (m : List (List Int)) : Int := (m.map (fun row => row.sum)).sum

def dateLE (a b : MatchRecord) : Prop := a.date ≤ b.date

instance : DecidableRel dateLE := fun a b => by unfold dateLE; exact inferInstance

/-- sort_values(by=Date) of line 511 — ascending by date.  The pandas
default quicksort leaves the relative order of equal dates unspecified;
the properties proved below are invariant under that choice, and insertion
sort realises one admissible outcome. -/
def sortByDate (l : List MatchRecord) : List MatchRecord :=
  l.insertionSort dateLE

/-- Indicator of the record being won by the given player — the
astype(int) of the boolean winner column (lines 517-518). -/
def winInd (p : String) (r : MatchRecord) : Nat := if r.winner == p then 1 else 0

/-- Running sums of a column with an explicit accumulator — cumsum. -/
def cumsumFrom (acc : Nat) : List Nat → List Nat
  | [] => []
  | x :: xs => (acc + x) :: cumsumFrom (acc + x) xs

def cumsum (l : List Nat) : List Nat := cumsumFrom 0 l

structure TrendSeries where
  p1_cumulative : List Nat
  p2_cumulative : List Nat
  match_numbers : List Nat
deriving DecidableEq

/-- plot_h2h_trend (lines 506-523): sort the head-to-head subset by date,
return on empty, otherwise the two cumulative win columns and the 1-based
match numbers. -/
def plot_h2h_trend (df : List MatchRecord) (p1 p2 : String) : Option TrendSeries :=
  let h2h_matches := sortByDate (h2hFilter df p1 p2)
  if h2h_matches.isEmpty then none
  else some
    { p1_cumulative := cumsum (h2h_matches.map (winInd p1))
    , p2_cumulative := cumsum (h2h_matches.map (winInd p2))
    , match_numbers := (List.range h2h_matches.length).map (fun i => i + 1) }

/-- Sum of a function over the full grid of two axes, used to relate the
matrix total to the underlying record counts. -/
def gridSumNat (S R : List String) (f : String × String → Nat) : Nat :=
  (S.map (fun s => (R.map (fun r => f (s, r))).sum)).sum

theorem occCount_cons {α : Type*} [DecidableEq α] (a k : α) (l : List α) :
    occCount (a :: l) k = occCount l k + if a = k then 1 else 0 := by
  simp [occCount, List.countP_cons]

theorem occCount_eq_zero {α : Type*} [DecidableEq α] {l : List α} {a : α} (h : a ∉ l) :
    occCount l a = 0 := by
  induction l with
  | nil => rfl
  | cons x xs ih =>
    simp only [List.mem_cons, not_or] at h
    rw [occCount_cons, ih h.2, if_neg (fun he => h.1 he.symm)]

theorem occCount_pos {α : Type*} [DecidableEq α] {l : List α} {a : α} (h : a ∈ l) :
    0 < occCount l a := by
  induction l with
  | nil => cases h
  | cons x xs ih =>
    rw [occCount_cons]
    rcases List.mem_cons.mp h with h1 | h1
    · rw [if_pos h1.symm]; omega
    · have := ih h1; omega

theorem sum_map_const_zero {α : Type*} (l : List α) :
    (l.map (fun _ => (0 : Nat))).sum = 0 := by
  induction l with
  | nil => rfl
  | cons x xs ih => simp [ih]

theorem sum_map_add_distrib {α : Type*} (l : List α) (f g : α → Nat) :
    (l.map (fun x => f x + g x)).sum = (l.map f).sum + (l.map g).sum := by
  induction l with
  | nil => rfl
  | cons x xs ih =>
    simp only [List.map_cons, List.sum_cons, ih]
    omega

theorem sum_map_indicator_zero {α : Type*} [DecidableEq α] {l : List α} {a : α}
    (h : a ∉ l) :
    (l.map (fun x => if a = x then (1 : Nat) else 0)).sum = 0 := by
  induction l with
  | nil => rfl
  | cons x xs ih =>
    simp only [List.mem_cons, not_or] at h
    simp only [List.map_cons, List.sum_cons]
    rw [if_neg h.1, ih h.2]

theorem sum_map_indicator_one {α : Type*} [DecidableEq α] {l : List α} {a : α}
    (hn : l.Nodup) (ha : a ∈ l) :
    (l.map (fun x => if a = x then (1 : Nat) else 0)).sum = 1 := by
  induction l with
  | nil => cases ha
  | cons x xs ih =>
    simp only [List.map_cons, List.sum_cons]
    rcases List.mem_cons.mp ha with h1 | h1
    · rw [if_pos h1, sum_map_indicator_zero (fun hm => (List.nodup_cons.mp hn).1 (h1 ▸ hm))]
    · have hxa : ¬ a = x := fun he => (List.nodup_cons.mp hn).1 (he ▸ h1)
      rw [if_neg hxa, ih (List.nodup_cons.mp hn).2 h1]

theorem sum_map_occCount {α : Type*} [DecidableEq α] (K l : List α)
    (hK : K.Nodup) (hl : ∀ a ∈ l, a ∈ K) :
    (K.map (occCount l)).sum = l.length := by
  induction l with
  | nil =>
    have h0 : occCount ([] : List α) = fun _ => 0 := funext (fun a => rfl)
    rw [h0, sum_map_const_zero]
    rfl
  | cons x xs ih =>
    have hx : occCount (x :: xs) = fun k => occCount xs k + if x = k then 1 else 0 :=
      funext (fun k => occCount_cons x k xs)
    rw [hx, sum_map_add_distrib, ih (fun a ha => hl a (List.mem_cons_of_mem x ha)),
      sum_map_indicator_one hK (hl x (List.mem_cons_self x xs))]
    rfl

theorem lookupD_map_self {β : Type*} (d : β) (f : String × String → β)
    (ks : List (String × String)) (k : String × String) :
    lookupD d (ks.map (fun x => (x, f x))) k = if k ∈ ks then f k else d := by
  induction ks with
  | nil => simp [lookupD]
  | cons x xs ih =>
    simp only [List.map_cons, lookupD]
    by_cases h : x = k
    · subst h
      simp
    · rw [if_neg h, ih]
      have hmem : (k ∈ x :: xs) ↔ k ∈ xs :=
        ⟨fun hm => (List.mem_cons.mp hm).resolve_left (fun he => h he.symm),
         fun hm => List.mem_cons_of_mem x hm⟩
      rw [if_congr hmem rfl rfl]

theorem lookupD_eq_default {β : Type*} (d : β) (m : List ((String × String) × β))
    (k : String × String) (h : k ∉ m.map (fun kv => kv.1)) : lookupD d m k = d := by
  induction m with
  | nil => rfl
  | cons kv rest ih =>
    simp only [List.map_cons, List.mem_cons, not_or] at h
    simp only [lookupD]
    rw [if_neg (fun he => h.1 he.symm), ih h.2]

theorem mem_unionKeys (A B : List ((String × String) × Nat)) (k : String × String) :
    k ∈ unionKeys A B ↔
      k ∈ A.map (fun kv => kv.1) ∨ k ∈ B.map (fun kv => kv.1) := by
  simp [unionKeys, List.mem_dedup, List.mem_append]

theorem lookupD_mergeOuter (A B : List ((String × String) × Nat)) (k : String × String) :
    lookupD (0, 0) (mergeOuter A B) k = (lookupD 0 A k, lookupD 0 B k) := by
  unfold mergeOuter
  rw [lookupD_map_self]
  by_cases h : k ∈ sortKeys (unionKeys A B)
  · rw [if_pos h]
  · rw [if_neg h]
    have h' : k ∉ unionKeys A B :=
      fun hm => h ((List.perm_insertionSort keyLE (unionKeys A B)).mem_iff.mpr hm)
    rw [mem_unionKeys] at h'
    push_neg at h'
    rw [lookupD_eq_default _ _ _ h'.1, lookupD_eq_default _ _ _ h'.2]

theorem sortStr_eq_of_mem_iff {l1 l2 : List String} (h1 : l1.Nodup) (h2 : l2.Nodup)
    (h : ∀ s, s ∈ l1 ↔ s ∈ l2) : sortStr l1 = sortStr l2 := by
  apply List.eq_of_perm_of_sorted (r := (· ≤ · : String → String → Prop))
  · exact (List.perm_insertionSort _ _).trans
      (((List.perm_ext_iff_of_nodup h1 h2).mpr h).trans
        (List.perm_insertionSort _ _).symm)
  · exact List.sorted_insertionSort _ _
  · exact List.sorted_insertionSort _ _

theorem mem_surfaces_mergeOuter (A B : List ((String × String) × Nat)) (s : String) :
    s ∈ (mergeOuter A B).map (fun kv => kv.1.1) ↔
      s ∈ A.map (fun kv => kv.1.1) ++ B.map (fun kv => kv.1.1) := by
  simp only [mergeOuter, List.map_map, Function.comp, List.mem_map, List.mem_append]
  constructor
  · rintro ⟨k, hk, rfl⟩
    have hk' := (List.perm_insertionSort keyLE (unionKeys A B)).mem_iff.mp hk
    rcases (mem_unionKeys A B k).mp hk' with hka | hkb
    · rcases List.mem_map.mp hka with ⟨kv, hkv, rfl⟩
      exact Or.inl ⟨kv, hkv, rfl⟩
    · rcases List.mem_map.mp hkb with ⟨kv, hkv, rfl⟩
      exact Or.inr ⟨kv, hkv, rfl⟩
  · rintro (⟨kv, hkv, rfl⟩ | ⟨kv, hkv, rfl⟩)
    · refine ⟨kv.1, ?_, rfl⟩
      exact (List.perm_insertionSort keyLE (unionKeys A B)).mem_iff.mpr
        ((mem_unionKeys A B kv.1).mpr (Or.inl (List.mem_map.mpr ⟨kv, hkv, rfl⟩)))
    · refine ⟨kv.1, ?_, rfl⟩
      exact (List.perm_insertionSort keyLE (unionKeys A B)).mem_iff.mpr
        ((mem_unionKeys A B kv.1).mpr (Or.inr (List.mem_map.mpr ⟨kv, hkv, rfl⟩)))

theorem mem_rounds_mergeOuter (A B : List ((String × String) × Nat)) (s : String) :
    s ∈ (mergeOuter A B).map (fun kv => kv.1.2) ↔
      s ∈ A.map (fun kv => kv.1.2) ++ B.map (fun kv => kv.1.2) := by
  simp only [mergeOuter, List.map_map, Function.comp, List.mem_map, List.mem_append]
  constructor
  · rintro ⟨k, hk, rfl⟩
    have hk' := (List.perm_insertionSort keyLE (unionKeys A B)).mem_iff.mp hk
    rcases (mem_unionKeys A B k).mp hk' with hka | hkb
    · rcases List.mem_map.mp hka with ⟨kv, hkv, rfl⟩
      exact Or.inl ⟨kv, hkv, rfl⟩
    · rcases List.mem_map.mp hkb with ⟨kv, hkv, rfl⟩
      exact Or.inr ⟨kv, hkv, rfl⟩
  · rintro (⟨kv, hkv, rfl⟩ | ⟨kv, hkv, rfl⟩)
    · refine ⟨kv.1, ?_, rfl⟩
      exact (List.perm_insertionSort keyLE (unionKeys A B)).mem_iff.mpr
        ((mem_unionKeys A B kv.1).mpr (Or.inl (List.mem_map.mpr ⟨kv, hkv, rfl⟩)))
    · refine ⟨kv.1, ?_, rfl⟩
      exact (List.perm_insertionSort keyLE (unionKeys A B)).mem_iff.mpr
        ((mem_unionKeys A B kv.1).mpr (Or.inr (List.mem_map.mpr ⟨kv, hkv, rfl⟩)))

theorem allSurfaces_eq_spec (A B : List ((String × String) × Nat)) :
    allSurfaces A B = specAllSurfaces A B := by
  unfold allSurfaces specAllSurfaces
  exact sortStr_eq_of_mem_iff (List.nodup_dedup _) (List.nodup_dedup _)
    (fun s => by rw [List.mem_dedup, List.mem_dedup]; exact mem_surfaces_mergeOuter A B s)

theorem allRounds_eq_spec (A B : List ((String × String) × Nat)) :
    allRounds A B = specAllRounds A B := by
  unfold allRounds specAllRounds
  exact sortStr_eq_of_mem_iff (List.nodup_dedup _) (List.nodup_dedup _)
    (fun s => by rw [List.mem_dedup, List.mem_dedup]; exact mem_rounds_mergeOuter A B s)

theorem specAllSurfaces_comm (A B : List ((String × String) × Nat)) :
    specAllSurfaces B A = specAllSurfaces A B := by
  unfold specAllSurfaces
  exact sortStr_eq_of_mem_iff (List.nodup_dedup _) (List.nodup_dedup _)
    (fun s => by
      rw [List.mem_dedup, List.mem_dedup, List.mem_append, List.mem_append]
      exact Or.comm)

theorem specAllRounds_comm (A B : List ((String × String) × Nat)) :
    specAllRounds B A = specAllRounds A B := by
  unfold specAllRounds
  exact sortStr_eq_of_mem_iff (List.nodup_dedup _) (List.nodup_dedup _)
    (fun s => by
      rw [List.mem_dedup, List.mem_dedup, List.mem_append, List.mem_append]
      exact Or.comm)

theorem alignAndDiff_eq_spec (A B : List ((String × String) × Nat)) :
    alignAndDiff A B = specDiffMatrix A B := by
  unfold alignAndDiff specDiffMatrix
  rw [allSurfaces_eq_spec, allRounds_eq_spec]
  simp only [lookupD_mergeOuter]

theorem sortStr_nodup {l : List String} (h : l.Nodup) : (sortStr l).Nodup :=
  (List.perm_insertionSort (· ≤ ·) l).symm.nodup h

theorem mem_sortStr {l : List String} {s : String} : s ∈ sortStr l ↔ s ∈ l :=
  (List.perm_insertionSort (· ≤ ·) l).mem_iff

theorem specAllSurfaces_nodup (A B : List ((String × String) × Nat)) :
    (specAllSurfaces A B).Nodup :=
  sortStr_nodup (List.nodup_dedup _)

theorem specAllRounds_nodup (A B : List ((String × String) × Nat)) :
    (specAllRounds A B).Nodup :=
  sortStr_nodup (List.nodup_dedup _)

theorem gridSumNat_zero (S R : List String) :
    gridSumNat S R (fun _ => 0) = 0 := by
  unfold gridSumNat
  have h : ∀ s : String, ((R.map (fun _ => (0 : Nat))).sum = 0) := fun _ => sum_map_const_zero R
  calc (S.map (fun s => (R.map (fun _ => (0 : Nat))).sum)).sum
      = (S.map (fun _ => (0 : Nat))).sum := by
        simp [sum_map_const_zero]
    _ = 0 := sum_map_const_zero S

theorem gridSumNat_add (S R : List String) (f g : String × String → Nat) :
    gridSumNat S R (fun k => f k + g k) =
      gridSumNat S R f + gridSumNat S R g := by
  unfold gridSumNat
  calc (S.map (fun s => (R.map (fun r => f (s, r) + g (s, r))).sum)).sum
      = (S.map (fun s => (R.map (fun r => f (s, r))).sum + (R.map (fun r => g (s, r))).sum)).sum := by
        apply congrArg
        apply List.map_congr_left
        intro s _
        exact sum_map_add_distrib R (fun r => f (s, r)) (fun r => g (s, r))
    _ = _ := sum_map_add_distrib S _ _

theorem gridSumNat_indicator (S R : List String) (k : String × String)
    (hS : S.Nodup) (hR : R.Nodup) (h1 : k.1 ∈ S) (h2 : k.2 ∈ R) :
    gridSumNat S R (fun x => if k = x then 1 else 0) = 1 := by
  obtain ⟨k1, k2⟩ := k
  unfold gridSumNat
  have hrow : ∀ s : String, ((R.map (fun r => if (k1, k2) = (s, r) then (1 : Nat) else 0)).sum)
      = if k1 = s then 1 else 0 := by
    intro s
    by_cases hs : k1 = s
    · rw [if_pos hs]
      subst hs
      calc (R.map (fun r => if (k1, k2) = (k1, r) then (1 : Nat) else 0)).sum
          = (R.map (fun r => if k2 = r then (1 : Nat) else 0)).sum := by
            apply congrArg
            apply List.map_congr_left
            intro r _
            by_cases hr : k2 = r
            · rw [if_pos hr, if_pos (by rw [hr])]
            · rw [if_neg hr, if_neg (fun he => hr (congrArg Prod.snd he))]
        _ = 1 := sum_map_indicator_one hR h2
    · rw [if_neg hs]
      calc (R.map (fun r => if (k1, k2) = (s, r) then (1 : Nat) else 0)).sum
          = (R.map (fun _ => (0 : Nat))).sum := by
            apply congrArg
            apply List.map_congr_left
            intro r _
            exact if_neg (fun he => hs (congrArg Prod.fst he))
        _ = 0 := sum_map_const_zero R
  calc (S.map (fun s => (R.map (fun r => if (k1, k2) = (s, r) then (1 : Nat) else 0)).sum)).sum
      = (S.map (fun s => if k1 = s then 1 else 0)).sum := by
        apply congrArg
        apply List.map_congr_left
        intro s _
        exact hrow s
    _ = 1 := sum_map_indicator_one hS h1

theorem gridSumNat_occCount (S R : List String) (ks : List (String × String))
    (hS : S.Nodup) (hR : R.Nodup) (hks : ∀ k ∈ ks, k.1 ∈ S ∧ k.2 ∈ R) :
    gridSumNat S R (occCount ks) = ks.length := by
  induction ks with
  | nil =>
    have h0 : occCount ([] : List (String × String)) = fun _ => 0 := funext (fun _ => rfl)
    rw [h0, gridSumNat_zero]
    rfl
  | cons k ks ih =>
    have hx : occCount (k :: ks) = fun x => occCount ks x + if k = x then 1 else 0 :=
      funext (fun x => occCount_cons k x ks)
    rw [hx, gridSumNat_add, ih (fun a ha => hks a (List.mem_cons_of_mem k ha)),
      gridSumNat_indicator S R k hS hR (hks k (List.mem_cons_self k ks)).1
        (hks k (List.mem_cons_self k ks)).2]
    rfl

theorem sum_map_sub_natCast {α : Type*} (l : List α) (f g : α → Nat) :
    (l.map (fun x => (f x : Int) - (g x : Int))).sum =
      ((l.map f).sum : Int) - ((l.map g).sum : Int) := by
  induction l with
  | nil => rfl
  | cons x xs ih =>
    simp only [List.map_cons, List.sum_cons, ih]
    push_cast
    ring

theorem matrixSum_grid_sub (S R : List String) (f g : String × String → Nat) :
    matrixSum (S.map (fun s => R.map (fun r => (f (s, r) : Int) - (g (s, r) : Int)))) =
      (gridSumNat S R f : Int) - (gridSumNat S R g : Int) := by
  induction S with
  | nil => rfl
  | cons s S ih =>
    simp only [matrixSum, gridSumNat, List.map_cons, List.sum_cons] at ih ⊢
    rw [sum_map_sub_natCast R (fun r => f (s, r)) (fun r => g (s, r)), ih]
    push_cast
    ring

theorem mem_sortKeys {l : List (String × String)} {k : String × String} :
    k ∈ sortKeys l ↔ k ∈ l :=
  (List.perm_insertionSort keyLE l).mem_iff

theorem lookupD_groupbySurfaceRoundSize (l : List MatchRecord) (k : String × String) :
    lookupD 0 (groupbySurfaceRoundSize l) k = occCount (winKeys l) k := by
  unfold groupbySurfaceRoundSize
  rw [lookupD_map_self]
  by_cases h : k ∈ sortKeys (winKeys l).dedup
  · rw [if_pos h]
  · rw [if_neg h]
    have h' : k ∉ winKeys l :=
      fun hm => h (mem_sortKeys.mpr (List.mem_dedup.mpr hm))
    exact (occCount_eq_zero h').symm

theorem groupby_keys_mem (l : List MatchRecord) (k : String × String)
    (hk : k ∈ winKeys l) :
    k ∈ (groupbySurfaceRoundSize l).map (fun kv => kv.1) := by
  unfold groupbySurfaceRoundSize
  rw [List.map_map]
  refine List.mem_map.mpr ⟨k, ?_, rfl⟩
  exact mem_sortKeys.mpr (List.mem_dedup.mpr hk)

theorem mem_specAllSurfaces_left (A B : List ((String × String) × Nat))
    (k : String × String) (hk : k ∈ A.map (fun kv => kv.1)) :
    k.1 ∈ specAllSurfaces A B := by
  unfold specAllSurfaces
  rw [mem_sortStr, List.mem_dedup, List.mem_append]
  rcases List.mem_map.mp hk with ⟨kv, hkv, rfl⟩
  exact Or.inl (List.mem_map.mpr ⟨kv, hkv, rfl⟩)

theorem mem_specAllSurfaces_right (A B : List ((String × String) × Nat))
    (k : String × String) (hk : k ∈ B.map (fun kv => kv.1)) :
    k.1 ∈ specAllSurfaces A B := by
  unfold specAllSurfaces
  rw [mem_sortStr, List.mem_dedup, List.mem_append]
  rcases List.mem_map.mp hk with ⟨kv, hkv, rfl⟩
  exact Or.inr (List.mem_map.mpr ⟨kv, hkv, rfl⟩)

theorem mem_specAllRounds_left (A B : List ((String × String) × Nat))
    (k : String × String) (hk : k ∈ A.map (fun kv => kv.1)) :
    k.2 ∈ specAllRounds A B := by
  unfold specAllRounds
  rw [mem_sortStr, List.mem_dedup, List.mem_append]
  rcases List.mem_map.mp hk with ⟨kv, hkv, rfl⟩
  exact Or.inl (List.mem_map.mpr ⟨kv, hkv, rfl⟩)

theorem mem_specAllRounds_right (A B : List ((String × String) × Nat))
    (k : String × String) (hk : k ∈ B.map (fun kv => kv.1)) :
    k.2 ∈ specAllRounds A B := by
  unfold specAllRounds
  rw [mem_sortStr, List.mem_dedup, List.mem_append]
  rcases List.mem_map.mp hk with ⟨kv, hkv, rfl⟩
  exact Or.inr (List.mem_map.mpr ⟨kv, hkv, rfl⟩)

theorem winKeys_length {l : List MatchRecord}
    (h : ∀ r ∈ l, r.surface.isSome = true ∧ r.round.isSome = true) :
    (winKeys l).length = l.length := by
  induction l with
  | nil => rfl
  | cons r rs ih =>
    have hr := h r (List.mem_cons_self r rs)
    obtain ⟨s, hs⟩ := Option.isSome_iff_exists.mp hr.1
    obtain ⟨rd, hrd⟩ := Option.isSome_iff_exists.mp hr.2
    have ih' := ih (fun a ha => h a (List.mem_cons_of_mem r ha))
    simp only [winKeys, List.filterMap_cons, hs, hrd] at ih' ⊢
    simp only [List.length_cons, ih']

theorem filterMap_surface_length {l : List MatchRecord}
    (h : ∀ r ∈ l, r.surface.isSome = true) :
    (l.filterMap (fun r => r.surface)).length = l.length := by
  induction l with
  | nil => rfl
  | cons r rs ih =>
    obtain ⟨s, hs⟩ := Option.isSome_iff_exists.mp (h r (List.mem_cons_self r rs))
    have ih' := ih (fun a ha => h a (List.mem_cons_of_mem r ha))
    simp only [List.filterMap_cons, hs] at ih' ⊢
    simp only [List.length_cons, ih']

theorem groupbySurfaceSize_sum (ss : List String) :
    ((groupbySurfaceSize ss).map (fun x => x.2)).sum = ss.length := by
  unfold groupbySurfaceSize
  rw [List.map_map]
  have hcomp : ((fun x : String × Nat => x.2) ∘ fun s => (s, occCount ss s)) = occCount ss :=
    funext (fun s => rfl)
  rw [hcomp]
  exact sum_map_occCount _ ss (sortStr_nodup (List.nodup_dedup ss))
    (fun a ha => mem_sortStr.mpr (List.mem_dedup.mpr ha))

theorem groupbySurfaceSize_pos (ss : List String) :
    ∀ x ∈ groupbySurfaceSize ss, 0 < x.2 := by
  intro x hx
  unfold groupbySurfaceSize at hx
  rcases List.mem_map.mp hx with ⟨s, hs, rfl⟩
  exact occCount_pos (List.mem_dedup.mp (mem_sortStr.mp hs))

theorem countP_add_of_partition {α : Type*} (l : List α) (p q : α → Bool)
    (h : ∀ a ∈ l, (p a = true ∨ q a = true) ∧ ¬(p a = true ∧ q a = true)) :
    l.countP p + l.countP q = l.length := by
  induction l with
  | nil => rfl
  | cons x xs ih =>
    have hx := h x (List.mem_cons_self x xs)
    have ih' := ih (fun a ha => h a (List.mem_cons_of_mem x ha))
    rw [List.countP_cons, List.countP_cons, List.length_cons]
    cases hp : p x <;> cases hq : q x <;>
      simp only [hp, hq] at hx <;> simp_all <;> omega

theorem cumsumFrom_head_le (acc : Nat) (l : List Nat) :
    ∀ y ∈ (cumsumFrom acc l).head?, acc ≤ y := by
  cases l with
  | nil => intro y hy; cases hy
  | cons x xs =>
    intro y hy
    simp only [cumsumFrom, List.head?_cons, Option.mem_def, Option.some.injEq] at hy
    omega

theorem cumsumFrom_chain (acc : Nat) (l : List Nat) :
    (cumsumFrom acc l).Chain' (· ≤ ·) := by
  induction l generalizing acc with
  | nil => exact List.chain'_nil
  | cons x xs ih =>
    rw [cumsumFrom, List.chain'_cons']
    exact ⟨fun y hy => cumsumFrom_head_le (acc + x) xs y hy, ih (acc + x)⟩

theorem cumsumFrom_ne_nil (acc : Nat) {l : List Nat} (h : l ≠ []) :
    cumsumFrom acc l ≠ [] := by
  cases l with
  | nil => cases h rfl
  | cons x xs => simp [cumsumFrom]

theorem cumsumFrom_getLast (acc : Nat) (l : List Nat) (h : l ≠ []) :
    (cumsumFrom acc l).getLast? = some (acc + l.sum) := by
  induction l generalizing acc with
  | nil => cases h rfl
  | cons x xs ih =>
    cases xs with
    | nil => simp [cumsumFrom]
    | cons y ys =>
      rw [cumsumFrom]
      rw [List.getLast?_cons]
      rw [ih (acc + x) (by simp)]
      simp only [Option.getD_some, List.sum_cons]
      congr 1
      omega

theorem sum_map_winInd (p : String) (l : List MatchRecord) :
    (l.map (winInd p)).sum = l.countP (fun r => r.winner == p) := by
  induction l with
  | nil => rfl
  | cons r rs ih =>
    simp only [List.map_cons, List.sum_cons, List.countP_cons, ih, winInd]
    cases hb : (r.winner == p)
    · simp [hb]
    · simp [hb]
      omega

theorem plot_h2h_summary_some_iff {df : List MatchRecord} {p1 p2 : String} {s : H2HSummary} :
    plot_h2h_summary df p1 p2 = some s ↔
      (h2hFilter df p1 p2 ≠ [] ∧
       s = ⟨(h2hFilter df p1 p2).length,
            (h2hFilter df p1 p2).countP (fun r => r.winner == p1),
            (h2hFilter df p1 p2).countP (fun r => r.winner == p2)⟩) := by
  rcases hL : h2hFilter df p1 p2 with _ | ⟨r, rs⟩
  · simp [plot_h2h_summary, hL]
  · simp only [plot_h2h_summary, hL, List.isEmpty_cons, ne_eq, reduceCtorEq,
      not_false_eq_true, true_and, if_false, Bool.false_eq_true]
    rw [Option.some.injEq]
    exact eq_comm

theorem plot_career_stats_some_iff {df : List MatchRecord} {p : String} {st : CareerStats} :
    plot_career_stats df p = some st ↔
      (careerFilter df p ≠ [] ∧
       st = ⟨(careerFilter df p).length,
             (careerFilter df p).countP (fun r => r.winner == p),
             (if 0 < (careerFilter df p).length then
               (((careerFilter df p).countP (fun r => r.winner == p) : ℚ) /
                 ((careerFilter df p).length : ℚ)) * 100
             else 0),
             ((groupbySurfaceSize
                 (((careerFilter df p).filter (fun r => r.winner == p)).filterMap
                   (fun r => r.surface))).insertionSort winsDescLE)⟩) := by
  rcases hL : careerFilter df p with _ | ⟨r, rs⟩
  · simp [plot_career_stats, hL]
  · simp only [plot_career_stats, hL, List.isEmpty_cons, ne_eq, reduceCtorEq,
      not_false_eq_true, true_and, if_false, Bool.false_eq_true]
    rw [Option.some.injEq]
    exact eq_comm

/-- C7: when the selection is empty — no record matches the named player,
or no record matches the unordered pair — the career computation and the
head-to-head computation return the none (EmptyResult) variant; both
functions are total, so no error or crash is possible. -/
theorem empty_selection_returns_none (df : List MatchRecord) (p p1 p2 : String) :
    (careerFilter df p = [] → plot_career_stats df p = none) ∧
    (h2hFilter df p1 p2 = [] → plot_h2h_summary df p1 p2 = none) := by
  constructor
  · intro h
    simp [plot_career_stats, h]
  · intro h
    simp [plot_h2h_summary, h]

/-- C7 witness: on a dataset without the queried player and pair, both
computations evaluate to none. -/
theorem empty_selection_returns_none_witness :
    careerFilter [⟨0, "X", "Y", "X", some "H", some "F"⟩] "A" = [] ∧
    plot_career_stats [⟨0, "X", "Y", "X", some "H", some "F"⟩] "A" = none ∧
    h2hFilter [⟨0, "X", "Y", "X", some "H", some "F"⟩] "A" "B" = [] ∧
    plot_h2h_summary [⟨0, "X", "Y", "X", some "H", some "F"⟩] "A" "B" = none :=
  ⟨by decide,
   (empty_selection_returns_none [⟨0, "X", "Y", "X", some "H", some "F"⟩] "A" "A" "B").1
     (by decide),
   by decide,
   (empty_selection_returns_none [⟨0, "X", "Y", "X", some "H", some "F"⟩] "A" "A" "B").2
     (by decide)⟩

/-- C9: the win rate is the guarded expression of lines 333 and 68: it is
0 when the selection is empty and 100 times the win count over the match
count otherwise, so the division only ever runs with a positive
denominator. -/
theorem win_rate_guarded (df : List MatchRecord) (p : String) :
    ((get_player_stats df p).1 = 0 → (get_player_stats df p).2.1 = 0) ∧
    (0 < (get_player_stats df p).1 →
      (get_player_stats df p).2.1 =
        100 * ((careerFilter df p).countP (fun r => r.winner == p) : ℚ) /
          ((careerFilter df p).length : ℚ)) ∧
    (∀ st, plot_career_stats df p = some st →
      st.win_rate = 100 * (st.total_wins : ℚ) / (st.total_matches : ℚ)) := by
  refine ⟨?_, ?_, ?_⟩
  · intro h
    simp only [get_player_stats] at h ⊢
    rw [if_neg (by omega)]
  · intro h
    simp only [get_player_stats] at h ⊢
    rw [if_pos h]
    ring
  · intro st hst
    obtain ⟨hne, rfl⟩ := plot_career_stats_some_iff.mp hst
    have hlen : 0 < (careerFilter df p).length := List.length_pos.mpr hne
    simp only [if_pos hlen]
    ring

/-- C9 witness: a single-match selection realises the positive branch, and
the empty selection the zero branch. -/
theorem win_rate_guarded_witness :
    0 < (get_player_stats [⟨0, "A", "B", "A", some "H", some "F"⟩] "A").1 ∧
    (get_player_stats [⟨0, "A", "B", "A", some "H", some "F"⟩] "A").2.1 =
      100 * ((careerFilter [⟨0, "A", "B", "A", some "H", some "F"⟩] "A").countP
          (fun r => r.winner == "A") : ℚ) /
        ((careerFilter [⟨0, "A", "B", "A", some "H", some "F"⟩] "A").length : ℚ) ∧
    (get_player_stats [] "A").1 = 0 ∧
    (get_player_stats [] "A").2.1 = 0 :=
  ⟨by decide,
   (win_rate_guarded [⟨0, "A", "B", "A", some "H", some "F"⟩] "A").2.1 (by decide),
   by decide,
   (win_rate_guarded [] "A").1 (by decide)⟩

/-- C1 counterexample: a selected record whose winner is neither named
player stays inside total_matches while being excluded from both win
counts, so the win counts sum to 0 against a total of 1, and appending
such a malformed record to a well-formed selection moves total_matches
from 1 to 2 instead of leaving it unchanged. -/
theorem h2h_malformed_counterexample :
    plot_h2h_summary [⟨0, "A", "B", "C", some "H", some "F"⟩] "A" "B" =
      some ⟨1, 0, 0⟩ ∧
    (0 : Nat) + 0 ≠ 1 ∧
    plot_h2h_summary [⟨0, "A", "B", "A", some "H", some "F"⟩] "A" "B" =
      some ⟨1, 1, 0⟩ ∧
    plot_h2h_summary
      [⟨0, "A", "B", "A", some "H", some "F"⟩, ⟨1, "A", "B", "C", some "H", some "F"⟩]
      "A" "B" = some ⟨2, 1, 0⟩ := by
  refine ⟨by decide, by decide, by decide, by decide⟩

/-- C1 (amended): the head-to-head computation selects the records whose
unordered participant pair is the two distinct named players; a selected
record whose winner is neither player is excluded from both win counts but
kept in total_matches, so the win counts sum to total_matches exactly when
every selected record is won by one of the two, and appending a malformed
record raises total_matches by one while leaving both win counts
unchanged. -/
theorem h2h_wins_sum_amended (df : List MatchRecord) (p1 p2 : String)
    (hp : p1 ≠ p2)
    (hw : ∀ r ∈ h2hFilter df p1 p2, r.winner = p1 ∨ r.winner = p2)
    (m : MatchRecord)
    (hm : (m.player_1 = p1 ∧ m.player_2 = p2) ∨ (m.player_1 = p2 ∧ m.player_2 = p1))
    (hmw : m.winner ≠ p1 ∧ m.winner ≠ p2) :
    (∀ s, plot_h2h_summary df p1 p2 = some s →
      s.p1_wins + s.p2_wins = s.total_matches) ∧
    (∀ s s2, plot_h2h_summary df p1 p2 = some s →
      plot_h2h_summary (df ++ [m]) p1 p2 = some s2 →
      s2.total_matches = s.total_matches + 1 ∧
      s2.p1_wins = s.p1_wins ∧ s2.p2_wins = s.p2_wins) := by
  have hfm : h2hFilter (df ++ [m]) p1 p2 = h2hFilter df p1 p2 ++ [m] := by
    unfold h2hFilter
    rw [List.filter_append]
    congr 1
    rcases hm with ⟨h1, h2⟩ | ⟨h1, h2⟩ <;> simp [List.filter, h1, h2]
  constructor
  · intro s hs
    obtain ⟨hne, rfl⟩ := plot_h2h_summary_some_iff.mp hs
    apply countP_add_of_partition
    intro r hr
    constructor
    · rcases hw r hr with h | h
      · exact Or.inl (by simp [h])
      · exact Or.inr (by simp [h])
    · rintro ⟨ha, hb⟩
      simp only [beq_iff_eq] at ha hb
      exact hp (ha ▸ hb ▸ rfl)
  · intro s s2 hs hs2
    obtain ⟨hne, rfl⟩ := plot_h2h_summary_some_iff.mp hs
    obtain ⟨hne2, rfl⟩ := plot_h2h_summary_some_iff.mp hs2
    rw [hfm]
    refine ⟨by simp, ?_, ?_⟩
    · simp only [List.countP_append]
      have : List.countP (fun r => r.winner == p1) [m] = 0 := by
        simp [List.countP_cons, hmw.1]
      omega
    · simp only [List.countP_append]
      have : List.countP (fun r => r.winner == p2) [m] = 0 := by
        simp [List.countP_cons, hmw.2]
      omega

/-- C1 witness: applied to a well-formed one-match selection and a
malformed record at concrete values. -/
theorem h2h_wins_sum_amended_witness :
    ("A" : String) ≠ "B" ∧
    (∀ r ∈ h2hFilter [⟨0, "A", "B", "A", some "H", some "F"⟩] "A" "B",
      r.winner = "A" ∨ r.winner = "B") ∧
    (∀ s, plot_h2h_summary [⟨0, "A", "B", "A", some "H", some "F"⟩] "A" "B" = some s →
      s.p1_wins + s.p2_wins = s.total_matches) :=
  ⟨by decide, by decide,
   (h2h_wins_sum_amended [⟨0, "A", "B", "A", some "H", some "F"⟩] "A" "B"
     (by decide) (by decide) ⟨1, "A", "B", "C", some "H", some "F"⟩
     (by decide) (by decide)).1⟩

/-- C2: the aligner output equals the dense difference grid of the
specification — rows are the lexicographically sorted union of the
surfaces of either mapping, columns the sorted union of the rounds, every
cell is the count of A minus the count of B with 0 filled for keys absent
from a mapping, the dimensions are the sizes of the two sorted unions
whatever the sparsity, and any cell whose key is absent from both inputs
reads 0. -/
theorem alignAndDiff_grid (A B : List ((String × String) × Nat)) :
    alignAndDiff A B = specDiffMatrix A B ∧
    List.Sorted (· ≤ ·) (specAllSurfaces A B) ∧
    List.Sorted (· ≤ ·) (specAllRounds A B) ∧
    (alignAndDiff A B).length = (specAllSurfaces A B).length ∧
    (∀ row ∈ alignAndDiff A B, row.length = (specAllRounds A B).length) ∧
    (∀ k : String × String, k ∉ A.map (fun kv => kv.1) → k ∉ B.map (fun kv => kv.1) →
      ((lookupD 0 A k : Nat) : Int) - ((lookupD 0 B k : Nat) : Int) = 0) := by
  refine ⟨alignAndDiff_eq_spec A B,
    by unfold specAllSurfaces sortStr; exact List.sorted_insertionSort _ _,
    by unfold specAllRounds sortStr; exact List.sorted_insertionSort _ _,
    ?_, ?_, ?_⟩
  · rw [alignAndDiff_eq_spec]
    unfold specDiffMatrix
    rw [List.length_map]
  · intro row hrow
    rw [alignAndDiff_eq_spec] at hrow
    unfold specDiffMatrix at hrow
    rcases List.mem_map.mp hrow with ⟨s, _, rfl⟩
    rw [List.length_map]
  · intro k hA hB
    rw [lookupD_eq_default _ _ _ hA, lookupD_eq_default _ _ _ hB]
    simp

/-- C2 witness: two mappings over a common single key evaluate through the
grid equation to the one-cell difference matrix. -/
theorem alignAndDiff_grid_witness :
    specDiffMatrix [(("C", "F"), 2)] [(("C", "F"), 1)] = [[1]] ∧
    alignAndDiff [(("C", "F"), 2)] [(("C", "F"), 1)] = [[1]] ∧
    (alignAndDiff [(("C", "F"), 2)] [(("C", "F"), 1)]).length = 1 :=
  ⟨by decide,
   ((alignAndDiff_grid [(("C", "F"), 2)] [(("C", "F"), 1)]).1).trans (by decide),
   by rw [((alignAndDiff_grid [(("C", "F"), 2)] [(("C", "F"), 1)]).1)]; decide⟩

/-- C3: the aligner is anti-symmetric — swapping the two input mappings
negates every cell of the difference matrix over the same row and column
order. -/
theorem alignAndDiff_antisymm (A B : List ((String × String) × Nat)) :
    alignAndDiff A B = (alignAndDiff B A).map (fun row => row.map (fun x => -x)) := by
  rw [alignAndDiff_eq_spec, alignAndDiff_eq_spec]
  unfold specDiffMatrix
  rw [specAllSurfaces_comm A B, specAllRounds_comm A B, List.map_map]
  apply List.map_congr_left
  intro s _
  simp only [Function.comp_apply, List.map_map]
  apply List.map_congr_left
  intro r _
  simp only [Function.comp_apply, neg_sub]

theorem career_of_h2h_isSome (df : List MatchRecord) (p1 p2 q : String)
    (hne : h2hFilter df p1 p2 ≠ []) (hq : q = p1 ∨ q = p2) :
    (plot_career_stats (h2hFilter df p1 p2) q).isSome = true := by
  obtain ⟨r, hr⟩ := List.exists_mem_of_ne_nil _ hne
  have hr2 : r ∈ h2hFilter df p1 p2 := hr
  unfold h2hFilter at hr2
  have hpred := (List.mem_filter.mp hr2).2
  simp only [Bool.or_eq_true, Bool.and_eq_true, beq_iff_eq] at hpred
  have hq' : (r.player_1 == q || r.player_2 == q) = true := by
    simp only [Bool.or_eq_true, beq_iff_eq]
    rcases hq with rfl | rfl
    · rcases hpred with ⟨ha, _⟩ | ⟨_, hb⟩
      · exact Or.inl ha
      · exact Or.inr hb
    · rcases hpred with ⟨_, hb⟩ | ⟨ha, _⟩
      · exact Or.inr hb
      · exact Or.inl ha
  have hne2 : careerFilter (h2hFilter df p1 p2) q ≠ [] := by
    apply List.ne_nil_of_mem (a := r)
    unfold careerFilter
    exact List.mem_filter.mpr ⟨hr, hq'⟩
  simp [plot_career_stats, hne2]

/-- C6: when the nonempty head-to-head selection has a record missing its
surface or round, the heatmap refuses to build the matrix and reports the
IncompleteCategoryData outcome, while the head-to-head summary over the
same selection and the career summaries over the same subset still
produce their results. -/
theorem heatmap_incomplete_category (df : List MatchRecord) (p1 p2 : String)
    (hne : h2hFilter df p1 p2 ≠ [])
    (hmiss : ∃ r ∈ h2hFilter df p1 p2, r.surface = none ∨ r.round = none) :
    plot_h2h_heatmap df p1 p2 = HeatmapResult.incompleteCategoryData ∧
    (plot_h2h_summary df p1 p2).isSome = true ∧
    (plot_career_stats (h2hFilter df p1 p2) p1).isSome = true ∧
    (plot_career_stats (h2hFilter df p1 p2) p2).isSome = true := by
  have hA : (h2hFilter df p1 p2).any (fun r => r.surface.isNone || r.round.isNone) = true := by
    rw [List.any_eq_true]
    obtain ⟨r, hr, hcase⟩ := hmiss
    exact ⟨r, hr, by rcases hcase with h | h <;> simp [h]⟩
  refine ⟨?_, ?_, career_of_h2h_isSome df p1 p2 p1 hne (Or.inl rfl),
    career_of_h2h_isSome df p1 p2 p2 hne (Or.inr rfl)⟩
  · simp [plot_h2h_heatmap, hne, hA]
  · simp [plot_h2h_summary, hne]

/-- C6 witness: one selected record missing its surface at concrete
values. -/
theorem heatmap_incomplete_category_witness :
    h2hFilter [⟨0, "A", "B", "A", none, some "F"⟩] "A" "B" ≠ [] ∧
    plot_h2h_heatmap [⟨0, "A", "B", "A", none, some "F"⟩] "A" "B" =
      HeatmapResult.incompleteCategoryData ∧
    (plot_h2h_summary [⟨0, "A", "B", "A", none, some "F"⟩] "A" "B").isSome = true ∧
    (plot_career_stats (h2hFilter [⟨0, "A", "B", "A", none, some "F"⟩] "A" "B") "A").isSome
      = true :=
  ⟨by decide,
   (heatmap_incomplete_category [⟨0, "A", "B", "A", none, some "F"⟩] "A" "B"
     (by decide) (by decide)).1,
   (heatmap_incomplete_category [⟨0, "A", "B", "A", none, some "F"⟩] "A" "B"
     (by decide) (by decide)).2.1,
   (heatmap_incomplete_category [⟨0, "A", "B", "A", none, some "F"⟩] "A" "B"
     (by decide) (by decide)).2.2.1⟩

theorem countP_sortByDate (p : MatchRecord → Bool) (l : List MatchRecord) :
    (sortByDate l).countP p = l.countP p :=
  (List.perm_insertionSort dateLE l).countP_eq p

theorem plot_h2h_trend_some_iff {df : List MatchRecord} {p1 p2 : String} {t : TrendSeries} :
    plot_h2h_trend df p1 p2 = some t ↔
      (sortByDate (h2hFilter df p1 p2) ≠ [] ∧
       t = ⟨cumsum ((sortByDate (h2hFilter df p1 p2)).map (winInd p1)),
            cumsum ((sortByDate (h2hFilter df p1 p2)).map (winInd p2)),
            (List.range (sortByDate (h2hFilter df p1 p2)).length).map (fun i => i + 1)⟩) := by
  rcases hL : sortByDate (h2hFilter df p1 p2) with _ | ⟨r, rs⟩
  · simp [plot_h2h_trend, hL]
  · simp only [plot_h2h_trend, hL, List.isEmpty_cons, ne_eq, reduceCtorEq,
      not_false_eq_true, true_and, if_false, Bool.false_eq_true]
    rw [Option.some.injEq]
    exact eq_comm

/-- C5: over a nonempty head-to-head selection the trend and the summary
both produce results, each cumulative win column is monotonically
nondecreasing, and the last entry of each column equals the corresponding
win total of the head-to-head summary over the same selection. -/
theorem trend_monotone_totals (df : List MatchRecord) (p1 p2 : String)
    (hne : h2hFilter df p1 p2 ≠ []) :
    (plot_h2h_trend df p1 p2).isSome = true ∧
    (plot_h2h_summary df p1 p2).isSome = true ∧
    (∀ t s, plot_h2h_trend df p1 p2 = some t → plot_h2h_summary df p1 p2 = some s →
      t.p1_cumulative.Chain' (· ≤ ·) ∧ t.p2_cumulative.Chain' (· ≤ ·) ∧
      t.p1_cumulative.getLast? = some s.p1_wins ∧
      t.p2_cumulative.getLast? = some s.p2_wins) := by
  have hsne : sortByDate (h2hFilter df p1 p2) ≠ [] := by
    intro h
    apply hne
    have hlen := (List.perm_insertionSort dateLE (h2hFilter df p1 p2)).length_eq
    rw [show sortByDate (h2hFilter df p1 p2) = List.insertionSort dateLE (h2hFilter df p1 p2)
      from rfl] at h
    rw [h] at hlen
    exact List.length_eq_zero.mp hlen.symm
  refine ⟨by simp [plot_h2h_trend, hsne], by simp [plot_h2h_summary, hne], ?_⟩
  intro t s ht hs
  obtain ⟨_, rfl⟩ := plot_h2h_trend_some_iff.mp ht
  obtain ⟨_, rfl⟩ := plot_h2h_summary_some_iff.mp hs
  have hmap1 : (sortByDate (h2hFilter df p1 p2)).map (winInd p1) ≠ [] :=
    fun h => hsne (List.map_eq_nil_iff.mp h)
  have hmap2 : (sortByDate (h2hFilter df p1 p2)).map (winInd p2) ≠ [] :=
    fun h => hsne (List.map_eq_nil_iff.mp h)
  refine ⟨cumsumFrom_chain 0 _, cumsumFrom_chain 0 _, ?_, ?_⟩
  · rw [show cumsum ((sortByDate (h2hFilter df p1 p2)).map (winInd p1)) =
      cumsumFrom 0 ((sortByDate (h2hFilter df p1 p2)).map (winInd p1)) from rfl]
    rw [cumsumFrom_getLast 0 _ hmap1, Nat.zero_add, sum_map_winInd, countP_sortByDate]
  · rw [show cumsum ((sortByDate (h2hFilter df p1 p2)).map (winInd p2)) =
      cumsumFrom 0 ((sortByDate (h2hFilter df p1 p2)).map (winInd p2)) from rfl]
    rw [cumsumFrom_getLast 0 _ hmap2, Nat.zero_add, sum_map_winInd, countP_sortByDate]

/-- C5 witness: two head-to-head matches in reverse date order. -/
theorem trend_monotone_totals_witness :
    plot_h2h_trend [⟨5, "A", "B", "A", some "H", some "F"⟩,
      ⟨3, "A", "B", "B", some "H", some "F"⟩] "A" "B" = some ⟨[0, 1], [1, 1], [1, 2]⟩ ∧
    plot_h2h_summary [⟨5, "A", "B", "A", some "H", some "F"⟩,
      ⟨3, "A", "B", "B", some "H", some "F"⟩] "A" "B" = some ⟨2, 1, 1⟩ ∧
    ([0, 1] : List Nat).Chain' (· ≤ ·) ∧
    ([0, 1] : List Nat).getLast? = some 1 :=
  ⟨by decide, by decide,
   ((trend_monotone_totals [⟨5, "A", "B", "A", some "H", some "F"⟩,
       ⟨3, "A", "B", "B", some "H", some "F"⟩] "A" "B" (by decide)).2.2
     ⟨[0, 1], [1, 1], [1, 2]⟩ ⟨2, 1, 1⟩ (by decide) (by decide)).1,
   ((trend_monotone_totals [⟨5, "A", "B", "A", some "H", some "F"⟩,
       ⟨3, "A", "B", "B", some "H", some "F"⟩] "A" "B" (by decide)).2.2
     ⟨[0, 1], [1, 1], [1, 2]⟩ ⟨2, 1, 1⟩ (by decide) (by decide)).2.2.1⟩

/-- C8 counterexample: a win record whose surface is missing is dropped by
the groupby, so on this record set the per-surface win counts sum to 0
while total_wins is 1, refuting the unconditional sum property. -/
theorem career_surface_sum_counterexample :
    (plot_career_stats [⟨0, "A", "B", "A", none, some "F"⟩] "A").map
      (fun st => (st.total_wins, (st.wins_by_surface.map (fun x => x.2)).sum)) =
      some (1, 0) ∧
    (0 : Nat) ≠ 1 :=
  ⟨by decide, by decide⟩

/-- C8 (amended): over a nonempty selection in which every record won by
the player carries a surface, the per-surface win counts sum to
total_wins; unconditionally total_wins is at most total_matches and every
listed surface carries at least one win. -/
theorem career_surface_sum_amended (df : List MatchRecord) (p : String)
    (hne : careerFilter df p ≠ [])
    (hs : ∀ r ∈ careerFilter df p, r.winner = p → r.surface.isSome = true) :
    (plot_career_stats df p).isSome = true ∧
    (∀ st, plot_career_stats df p = some st →
      (st.wins_by_surface.map (fun x => x.2)).sum = st.total_wins ∧
      st.total_wins ≤ st.total_matches ∧
      ∀ x ∈ st.wins_by_surface, 0 < x.2) := by
  constructor
  · simp [plot_career_stats, hne]
  · intro st hst
    obtain ⟨_, rfl⟩ := plot_career_stats_some_iff.mp hst
    refine ⟨?_, List.countP_le_length _, ?_⟩
    · have hperm := List.perm_insertionSort winsDescLE
        (groupbySurfaceSize
          (((careerFilter df p).filter (fun r => r.winner == p)).filterMap
            (fun r => r.surface)))
      rw [(hperm.map (fun x => x.2)).sum_eq, groupbySurfaceSize_sum]
      rw [filterMap_surface_length, List.countP_eq_length_filter]
      intro r hr
      have hmem := List.mem_filter.mp hr
      exact hs r hmem.1 (beq_iff_eq.mp hmem.2)
    · intro x hx
      have hperm := List.perm_insertionSort winsDescLE
        (groupbySurfaceSize
          (((careerFilter df p).filter (fun r => r.winner == p)).filterMap
            (fun r => r.surface)))
      exact groupbySurfaceSize_pos _ x (hperm.mem_iff.mp hx)

/-- C8 witness: a one-win selection whose win carries a surface, where the
table sums to the win total. -/
theorem career_surface_sum_amended_witness :
    careerFilter [⟨0, "A", "B", "A", some "H", some "F"⟩] "A" ≠ [] ∧
    (∀ r ∈ careerFilter [⟨0, "A", "B", "A", some "H", some "F"⟩] "A",
      r.winner = "A" → r.surface.isSome = true) ∧
    (plot_career_stats [⟨0, "A", "B", "A", some "H", some "F"⟩] "A").map
      (fun st => ((st.wins_by_surface.map (fun x => x.2)).sum, st.total_wins)) =
      some (1, 1) ∧
    (plot_career_stats [⟨0, "A", "B", "A", some "H", some "F"⟩] "A").isSome = true :=
  ⟨by decide, by decide, by decide,
   (career_surface_sum_amended [⟨0, "A", "B", "A", some "H", some "F"⟩] "A"
     (by decide) (by decide)).1⟩

theorem matrixSum_specDiffMatrix (A B : List ((String × String) × Nat)) :
    matrixSum (specDiffMatrix A B) =
      ((gridSumNat (specAllSurfaces A B) (specAllRounds A B) (fun k => lookupD 0 A k)) : Int) -
      ((gridSumNat (specAllSurfaces A B) (specAllRounds A B) (fun k => lookupD 0 B k)) : Int) := by
  unfold specDiffMatrix
  exact matrixSum_grid_sub _ _ _ _

/-- C10: when every selected head-to-head record carries both surface and
round and every winner is one of the two named players, the heatmap
produces the difference matrix of the two groupings, and the sum of all
its cells equals the first player win total minus the second player win
total of the head-to-head summary over the same selection. -/
theorem diff_matrix_total (df : List MatchRecord) (p1 p2 : String)
    (hne : h2hFilter df p1 p2 ≠ [])
    (h1 : ∀ r ∈ h2hFilter df p1 p2, r.surface.isSome = true ∧ r.round.isSome = true)
    (_h2 : ∀ r ∈ h2hFilter df p1 p2, r.winner = p1 ∨ r.winner = p2) :
    plot_h2h_heatmap df p1 p2 =
      HeatmapResult.diffMatrix (alignAndDiff
        (groupbySurfaceRoundSize ((h2hFilter df p1 p2).filter (fun r => r.winner == p1)))
        (groupbySurfaceRoundSize ((h2hFilter df p1 p2).filter (fun r => r.winner == p2)))) ∧
    (∀ D s, plot_h2h_heatmap df p1 p2 = HeatmapResult.diffMatrix D →
      plot_h2h_summary df p1 p2 = some s →
      matrixSum D = (s.p1_wins : Int) - (s.p2_wins : Int)) := by
  have hA : (h2hFilter df p1 p2).any (fun r => r.surface.isNone || r.round.isNone) = false := by
    rw [List.any_eq_false]
    intro r hr
    obtain ⟨hs', hr'⟩ := h1 r hr
    cases hsurf : r.surface with
    | none => rw [hsurf] at hs'; cases hs'
    | some s =>
      cases hround : r.round with
      | none => rw [hround] at hr'; cases hr'
      | some rd => simp [hsurf, hround]
  have hmain : plot_h2h_heatmap df p1 p2 =
      HeatmapResult.diffMatrix (alignAndDiff
        (groupbySurfaceRoundSize ((h2hFilter df p1 p2).filter (fun r => r.winner == p1)))
        (groupbySurfaceRoundSize ((h2hFilter df p1 p2).filter (fun r => r.winner == p2)))) := by
    simp [plot_h2h_heatmap, hne, hA]
  refine ⟨hmain, ?_⟩
  intro D s hD hs
  rw [hmain] at hD
  obtain rfl := (HeatmapResult.diffMatrix.injEq _ _).mp hD
  obtain ⟨_, rfl⟩ := plot_h2h_summary_some_iff.mp hs
  have hp1w : ∀ r ∈ (h2hFilter df p1 p2).filter (fun r => r.winner == p1),
      r.surface.isSome = true ∧ r.round.isSome = true :=
    fun r hr => h1 r (List.mem_filter.mp hr).1
  have hp2w : ∀ r ∈ (h2hFilter df p1 p2).filter (fun r => r.winner == p2),
      r.surface.isSome = true ∧ r.round.isSome = true :=
    fun r hr => h1 r (List.mem_filter.mp hr).1
  rw [alignAndDiff_eq_spec, matrixSum_specDiffMatrix]
  have hfa : (fun k => lookupD 0 (groupbySurfaceRoundSize
      ((h2hFilter df p1 p2).filter (fun r => r.winner == p1))) k) =
      occCount (winKeys ((h2hFilter df p1 p2).filter (fun r => r.winner == p1))) :=
    funext (fun k => lookupD_groupbySurfaceRoundSize _ k)
  have hfb : (fun k => lookupD 0 (groupbySurfaceRoundSize
      ((h2hFilter df p1 p2).filter (fun r => r.winner == p2))) k) =
      occCount (winKeys ((h2hFilter df p1 p2).filter (fun r => r.winner == p2))) :=
    funext (fun k => lookupD_groupbySurfaceRoundSize _ k)
  rw [hfa, hfb]
  rw [gridSumNat_occCount _ _ _ (specAllSurfaces_nodup _ _) (specAllRounds_nodup _ _)
    (fun k hk => ⟨mem_specAllSurfaces_left _ _ k (groupby_keys_mem _ k hk),
      mem_specAllRounds_left _ _ k (groupby_keys_mem _ k hk)⟩)]
  rw [gridSumNat_occCount _ _ _ (specAllSurfaces_nodup _ _) (specAllRounds_nodup _ _)
    (fun k hk => ⟨mem_specAllSurfaces_right _ _ k (groupby_keys_mem _ k hk),
      mem_specAllRounds_right _ _ k (groupby_keys_mem _ k hk)⟩)]
  rw [winKeys_length hp1w, winKeys_length hp2w]
  rw [List.countP_eq_length_filter, List.countP_eq_length_filter]

/-- C10 witness: one win each on a common surface and round, where the
one-cell matrix sums to zero, the win difference. -/
theorem diff_matrix_total_witness :
    plot_h2h_heatmap [⟨0, "A", "B", "A", some "H", some "F"⟩,
      ⟨1, "A", "B", "B", some "H", some "F"⟩] "A" "B" = HeatmapResult.diffMatrix [[0]] ∧
    plot_h2h_summary [⟨0, "A", "B", "A", some "H", some "F"⟩,
      ⟨1, "A", "B", "B", some "H", some "F"⟩] "A" "B" = some ⟨2, 1, 1⟩ ∧
    matrixSum [[0]] = ((1 : Nat) : Int) - ((1 : Nat) : Int) :=
  ⟨by decide, by decide,
   (diff_matrix_total [⟨0, "A", "B", "A", some "H", some "F"⟩,
       ⟨1, "A", "B", "B", some "H", some "F"⟩] "A" "B"
     (by decide) (by decide) (by decide)).2 [[0]] ⟨2, 1, 1⟩ (by decide) (by decide)⟩
